import Mathlib

/-!
Verification development for the artemis-arise backend: the proposal
ingestion pipeline (member/payload normalization, envelope resolution,
schema validation) and the gated stage/decision state machine, embedded
from `src/shared/schema.ts` and `src/server/routes.ts`.
-/

namespace Artemis

/-- The five proposal stages (`ProposalStage` in `shared/schema.ts`). -/
inductive ProposalStage where
  | DOC_REVIEW
  | RISK_REVIEW
  | APPROVED
  | REJECTED
  | CHANGES_REQUESTED
deriving DecidableEq, Repr

/-- The three decision types (`DecisionType` in `shared/schema.ts`). -/
inductive DecisionType where
  | APPROVE
  | REJECT
  | REQUEST_CHANGES
deriving DecidableEq, Repr

/-- A decision request body, already structurally typed.  The runtime
check that zod's `insertDecisionSchema` adds on top of the structural
shape is the stage enum restriction, modelled by
`insertDecisionSafeParse`. -/
structure InsertDecision where
  stage : ProposalStage
  decision : DecisionType
  reasons : List String
  comment : Option String
  userId : String
deriving DecidableEq, Repr

/-- `insertDecisionSchema.safeParse`: the claimed stage must be
`DOC_REVIEW` or `RISK_REVIEW` (`z.enum([ProposalStage.DOC_REVIEW,
ProposalStage.RISK_REVIEW])` in `shared/schema.ts`). -/
def insertDecisionSafeParse (body : InsertDecision) : Option InsertDecision :=
  if body.stage = ProposalStage.DOC_REVIEW ∨ body.stage = ProposalStage.RISK_REVIEW then
    some body
  else
    none

/-- A persisted decision record (`Decision` in `shared/schema.ts`). -/
structure Decision where
  decisionId : Nat
  proposalId : String
  stage : ProposalStage
  decision : DecisionType
  reasons : List String
  comment : Option String
  userId : String
  createdAt : Nat
deriving DecidableEq, Repr

/-- Modelled from the spec: the Proposal Repository (`server/storage.ts`
is not under `src/`); durable store of proposal stages and decision
records, keyed by proposal identifier, with fresh-identifier and
current-timestamp sources. -/
structure Storage where
  proposals : List (String × ProposalStage)
  decisions : List Decision
  nextDecisionId : Nat
  now : Nat
deriving DecidableEq, Repr

/-- Stage lookup in the proposal store (repository `get`). -/
def getProposalStage : List (String × ProposalStage) → String → Option ProposalStage
  | [], _ => none
  | (k, s) :: rest, pid => if k = pid then some s else getProposalStage rest pid

/-- Modelled from the spec: repository `createDecision` — appends an
immutable decision record with a freshly assigned identifier and the
current timestamp. -/
def createDecision (st : Storage) (proposalId : String) (d : InsertDecision) :
    Decision × Storage :=
  let record : Decision :=
    { decisionId := st.nextDecisionId
      proposalId := proposalId
      stage := d.stage
      decision := d.decision
      reasons := d.reasons
      comment := d.comment
      userId := d.userId
      createdAt := st.now }
  (record, { st with
              decisions := st.decisions ++ [record]
              nextDecisionId := st.nextDecisionId + 1 })

/-- Modelled from the spec: repository `updateProposalStage` — sets the
stored stage of the identified proposal. -/
def updateProposalStage (st : Storage) (proposalId : String) (s : ProposalStage) :
    Storage :=
  { st with
      proposals := st.proposals.map (fun kv => if kv.1 = proposalId then (kv.1, s) else kv) }

/-- The distinguishable failure outcomes of the decision endpoint. -/
inductive DecideError where
  | malformedInput
  | notFound
  | terminalStage
  | staleStage
  | invalidApprovalStage
  | invalidDecisionType
deriving DecidableEq, Repr

/-- The success response of the decision endpoint. -/
structure DecideOk where
  decisionId : Nat
  previousStage : ProposalStage
  newStage : ProposalStage
  decision : DecisionType
deriving DecidableEq, Repr

/-- The new-stage computation of `POST /api/gate/proposals/:id/decision`
(`routes.ts` lines 230–250), kept as the same if/else chain, including
the two error branches of the source. -/
def computeNewStage (d : InsertDecision) : Except DecideError ProposalStage :=
  if d.decision = DecisionType.REJECT then
    Except.ok ProposalStage.REJECTED
  else if d.decision = DecisionType.REQUEST_CHANGES then
    Except.ok ProposalStage.CHANGES_REQUESTED
  else if d.decision = DecisionType.APPROVE then
    if d.stage = ProposalStage.DOC_REVIEW then
      Except.ok ProposalStage.RISK_REVIEW
    else if d.stage = ProposalStage.RISK_REVIEW then
      Except.ok ProposalStage.APPROVED
    else
      Except.error DecideError.invalidApprovalStage
  else
    Except.error DecideError.invalidDecisionType

/-- The full decision endpoint handler
(`POST /api/gate/proposals/:proposalId/decision` in `routes.ts`), with
the source's order of effects: schema validation, proposal fetch,
terminal-state guard, stale-stage guard, decision-record creation, then
new-stage computation and stage update. -/
def decideHandler (st : Storage) (proposalId : String) (body : InsertDecision) :
    Except DecideError DecideOk × Storage :=
  match insertDecisionSafeParse body with
  | none => (Except.error DecideError.malformedInput, st)
  | some decisionData =>
    match getProposalStage st.proposals proposalId with
    | none => (Except.error DecideError.notFound, st)
    | some stage =>
      if stage = ProposalStage.APPROVED ∨ stage = ProposalStage.REJECTED then
        (Except.error DecideError.terminalStage, st)
      else if stage ≠ decisionData.stage then
        (Except.error DecideError.staleStage, st)
      else
        let created := createDecision st proposalId decisionData
        match computeNewStage decisionData with
        | Except.error e => (Except.error e, created.2)
        | Except.ok newStage =>
          (Except.ok
            { decisionId := created.1.decisionId
              previousStage := stage
              newStage := newStage
              decision := decisionData.decision },
            updateProposalStage created.2 proposalId newStage)

/-- The new stage carried by a success result, `none` on error. -/
def okNewStage : Except DecideError DecideOk → Option ProposalStage
  | Except.ok r => some r.newStage
  | Except.error _ => none

/-- JavaScript `a || b` on an optional string: an absent or empty
(falsy) value falls through to the default. -/
def jsOrStr : Option String → String → String
  | some s, d => if s = "" then d else s
  | none, d => d

/-- JavaScript `String.prototype.trim`: strip leading and trailing
whitespace. -/
def jsTrim (s : String) : String :=
  String.mk (((s.data.dropWhile Char.isWhitespace).reverse.dropWhile
    Char.isWhitespace).reverse)

/-- A pre-normalization member record (`memberSchema` in
`shared/schema.ts`), structurally typed; the two refinements of the
schema are enforced by `memberRefine` during parsing. -/
structure Member where
  memberId : Option String
  name : Option String
  firstName : Option String
  lastName : Option String
  loanAmount : Option Int
  requestedAmount : Option Int
  phone : Option String
  idNumber : Option String
  evidencePhotos : Option (List String)
  signature : Option String
  isLeader : Option Bool
deriving DecidableEq, Repr

/-- A canonical member record (`NormalizedMember` in
`shared/schema.ts`). -/
structure NormalizedMember where
  memberId : String
  name : String
  firstName : Option String
  lastName : Option String
  loanAmount : Int
  requestedAmount : Option Int
  phone : Option String
  idNumber : Option String
  evidencePhotos : Option (List String)
  signature : Option String
  isLeader : Option Bool
deriving DecidableEq, Repr

/-- `normalizeMember` of `shared/schema.ts`: identifier falls back to
`"M" + (index+1)`, name to the trimmed join of first/last, amount to
`requestedAmount` then 0; everything else passes through. -/
def normalizeMember (member : Member) (index : Nat) : NormalizedMember :=
  { memberId := jsOrStr member.memberId ("M" ++ toString (index + 1))
    name := jsOrStr member.name
      (jsTrim ((member.firstName.getD "") ++ " " ++ (member.lastName.getD "")))
    firstName := member.firstName
    lastName := member.lastName
    loanAmount := member.loanAmount.getD (member.requestedAmount.getD 0)
    requestedAmount := member.requestedAmount
    phone := member.phone
    idNumber := member.idNumber
    evidencePhotos := member.evidencePhotos
    signature := member.signature
    isLeader := member.isLeader }

/-- A JSON value as delivered in a request body; numeric values in
scope are integral. -/
inductive Json where
  | null
  | bool (b : Bool)
  | num (n : Int)
  | str (s : String)
  | arr (elems : List Json)
  | obj (fields : List (String × Json))

/-- A proposal payload that already passed `proposalPayloadSchema`'s
structural checks (`ProposalPayload` in `shared/schema.ts`). -/
structure ProposalPayload where
  groupId : String
  groupName : Option String
  leaderName : Option String
  leaderPhone : Option String
  members : List Member
  totalAmount : Option Int
  contractText : Option String
  evidencePhotos : Option (List String)
  formData : Option (List (String × Json))

/-- The canonical stored payload (`NormalizedProposalPayload` in
`shared/schema.ts`). -/
structure NormalizedProposalPayload where
  groupId : String
  groupName : String
  leaderName : String
  leaderPhone : Option String
  members : List NormalizedMember
  totalAmount : Int
  contractText : Option String
  evidencePhotos : Option (List String)
  formData : Option (List (String × Json))

/-- `payload.members.map((m, i) => normalizeMember(m, i))`, carrying
the zero-based position. -/
def normalizeMembersAux : List Member → Nat → List NormalizedMember
  | [], _ => []
  | m :: rest, i => normalizeMember m i :: normalizeMembersAux rest (i + 1)

/-- `members.find(m => m.isLeader) || members[0]`: the first member
with a truthy leader flag, else the first member, else nothing. -/
def findLeader (members : List NormalizedMember) : Option NormalizedMember :=
  match members.find? (fun m => m.isLeader == some true) with
  | some l => some l
  | none => members.head?

/-- `normalizeProposalPayload` of `shared/schema.ts`: derived group
name, leader name, total amount, per-member normalization. -/
def normalizeProposalPayload (payload : ProposalPayload) : NormalizedProposalPayload :=
  { groupId := payload.groupId
    groupName := jsOrStr payload.groupName ("Group " ++ payload.groupId)
    leaderName := jsOrStr payload.leaderName
      (jsOrStr ((findLeader (normalizeMembersAux payload.members 0)).map (fun l => l.name))
        "Unknown")
    leaderPhone := payload.leaderPhone
    members := normalizeMembersAux payload.members 0
    totalAmount := payload.totalAmount.getD
      ((normalizeMembersAux payload.members 0).foldl (fun sum m => sum + m.loanAmount) 0)
    contractText := payload.contractText
    evidencePhotos := payload.evidencePhotos
    formData := payload.formData }

/-- First-match field lookup in a JSON object's field list. -/
def lookupField : List (String × Json) → String → Option Json
  | [], _ => none
  | (k2, v) :: rest, k => if k2 = k then some v else lookupField rest k

/-- Property access `body[k]` on a JSON value. -/
def getField : Json → String → Option Json
  | Json.obj fields, k => lookupField fields k
  | _, _ => none

/-- `value && typeof value === "object"`: the truthy values of JSON
type object — objects and arrays (null is falsy). -/
def isObjLike : Json → Bool
  | Json.obj _ => true
  | Json.arr _ => true
  | _ => false

/-- The envelope resolution of `POST /api/proposals/submit`
(`routes.ts`): `rawBody?.payload && typeof rawBody.payload === "object"
? rawBody.payload : rawBody`. -/
def resolveEnvelope (rawBody : Json) : Json :=
  match getField rawBody "payload" with
  | some p => if isObjLike p then p else rawBody
  | none => rawBody

/-- Read a JSON string. -/
def asStr : Json → Option String
  | Json.str s => some s
  | _ => none

/-- Read a JSON number. -/
def asNum : Json → Option Int
  | Json.num n => some n
  | _ => none

/-- Read a JSON boolean. -/
def asBool : Json → Option Bool
  | Json.bool b => some b
  | _ => none

/-- Read a JSON array of strings (`z.array(z.string())`). -/
def asStrList : Json → Option (List String)
  | Json.arr xs => xs.mapM asStr
  | _ => none

/-- Read a JSON object's field list (`z.record(z.any())`). -/
def asRecord : Json → Option (List (String × Json))
  | Json.obj fields => some fields
  | _ => none

/-- An optional field of a zod object: absence is fine, a present value
must parse. -/
def optField (j : Json) (k : String) (f : Json → Option α) : Option (Option α) :=
  match getField j k with
  | none => some none
  | some v => (f v).map some

/-- JavaScript truthiness of an optional string. -/
def truthyStr : Option String → Bool
  | some s => s != ""
  | none => false

/-- The two refinements of `memberSchema`: a name form and an amount
form must be present (`data.name || (data.firstName && data.lastName)`
and `data.loanAmount !== undefined || data.requestedAmount !==
undefined`). -/
def memberRefine (m : Member) : Bool :=
  (truthyStr m.name || (truthyStr m.firstName && truthyStr m.lastName)) &&
    (m.loanAmount.isSome || m.requestedAmount.isSome)

/-- `memberSchema.safeParse` on a JSON value. -/
def memberSafeParse (j : Json) : Option Member :=
  match j with
  | Json.obj _ => do
    let memberId ← optField j "memberId" asStr
    let name ← optField j "name" asStr
    let firstName ← optField j "firstName" asStr
    let lastName ← optField j "lastName" asStr
    let loanAmount ← optField j "loanAmount" asNum
    let requestedAmount ← optField j "requestedAmount" asNum
    let phone ← optField j "phone" asStr
    let idNumber ← optField j "idNumber" asStr
    let evidencePhotos ← optField j "evidencePhotos" asStrList
    let signature ← optField j "signature" asStr
    let isLeader ← optField j "isLeader" asBool
    let m : Member := ⟨memberId, name, firstName, lastName, loanAmount, requestedAmount,
      phone, idNumber, evidencePhotos, signature, isLeader⟩
    if memberRefine m then some m else none
  | _ => none

/-- `proposalPayloadSchema.safeParse` on a JSON value: `groupId` a
required string, `members` a non-empty array of members, the remaining
fields optional with their zod shapes. -/
def proposalPayloadSafeParse (j : Json) : Option ProposalPayload :=
  match j with
  | Json.obj _ => do
    let groupId ← (getField j "groupId").bind asStr
    let groupName ← optField j "groupName" asStr
    let leaderName ← optField j "leaderName" asStr
    let leaderPhone ← optField j "leaderPhone" asStr
    let membersJson ← (getField j "members").bind (fun v =>
      match v with
      | Json.arr xs => some xs
      | _ => none)
    let members ← membersJson.mapM memberSafeParse
    let totalAmount ← optField j "totalAmount" asNum
    let contractText ← optField j "contractText" asStr
    let evidencePhotos ← optField j "evidencePhotos" asStrList
    let formData ← optField j "formData" asRecord
    if members.length ≥ 1 then
      some ⟨groupId, groupName, leaderName, leaderPhone, members, totalAmount,
        contractText, evidencePhotos, formData⟩
    else
      none
  | _ => none

/-- The submission pipeline of `POST /api/proposals/submit`: envelope
resolution, schema validation, then derived-field normalization; the
result is what is persisted. -/
def submitOutcome (rawBody : Json) : Option NormalizedProposalPayload :=
  (proposalPayloadSafeParse (resolveEnvelope rawBody)).map normalizeProposalPayload

/-- The claim's stated identifier precedence read literally: the given
identifier when present, else the synthesized positional identifier. -/
def specMemberId (m : Member) (i : Nat) : String :=
  match m.memberId with
  | some s => s
  | none => "M" ++ toString (i + 1)

/-- The claim's stated group-name precedence read literally: the
explicit group name when present, else the label derived from the group
id. -/
def specGroupName (p : ProposalPayload) : String :=
  match p.groupName with
  | some s => s
  | none => "Group " ++ p.groupId

/-- The claim's stated leader-name precedence read literally: the
explicit leader name when present, else the name of the member flagged
as leader, else the name of the first member, else the sentinel
"Unknown". -/
def specLeaderName (p : ProposalPayload) : String :=
  match p.leaderName with
  | some s => s
  | none =>
    match (normalizeMembersAux p.members 0).find? (fun m => m.isLeader == some true) with
    | some l => l.name
    | none =>
      match (normalizeMembersAux p.members 0).head? with
      | some l => l.name
      | none => "Unknown"

/-- Amended identifier rule: the given identifier when present and
non-empty, else the synthesized positional identifier. -/
def amendedMemberId (m : Member) (i : Nat) : String :=
  match m.memberId with
  | some s => if s ≠ "" then s else "M" ++ toString (i + 1)
  | none => "M" ++ toString (i + 1)

/-- Name rule of the claim: the single-name field when present and
non-empty, else the trimmed concatenation of first and last name with
one separating space. -/
def amendedMemberName (m : Member) : String :=
  match m.name with
  | some s =>
    if s ≠ "" then s
    else jsTrim ((m.firstName.getD "") ++ " " ++ (m.lastName.getD ""))
  | none => jsTrim ((m.firstName.getD "") ++ " " ++ (m.lastName.getD ""))

/-- Amount rule of the claim: `loanAmount` when present, else
`requestedAmount`, else 0. -/
def amendedMemberAmount (m : Member) : Int :=
  match m.loanAmount with
  | some a => a
  | none =>
    match m.requestedAmount with
    | some a => a
    | none => 0

/-- Amended group-name rule: the explicit group name when present and
non-empty, else the label derived from the group id. -/
def amendedGroupName (p : ProposalPayload) : String :=
  match p.groupName with
  | some s => if s ≠ "" then s else "Group " ++ p.groupId
  | none => "Group " ++ p.groupId

/-- Amended leader-name rule: the explicit leader name when present and
non-empty; else the selected leader is the member flagged as leader if
any, otherwise the first member, and that member's name is used when
non-empty; else the sentinel "Unknown". -/
def amendedLeaderName (p : ProposalPayload) : String :=
  let leader := findLeader (normalizeMembersAux p.members 0)
  let fromLeader :=
    match leader with
    | some l => if l.name ≠ "" then l.name else "Unknown"
    | none => "Unknown"
  match p.leaderName with
  | some s => if s ≠ "" then s else fromLeader
  | none => fromLeader

/-- Total-amount rule of the claim: the explicit total when present,
else the sum of the normalized members' loan amounts. -/
def amendedTotalAmount (p : ProposalPayload) : Int :=
  match p.totalAmount with
  | some t => t
  | none => (normalizeMembersAux p.members 0).foldl (fun sum m => sum + m.loanAmount) 0

/-- Re-embedding of a normalized member as schema input. -/
def asMember (m : NormalizedMember) : Member :=
  { memberId := some m.memberId
    name := some m.name
    firstName := m.firstName
    lastName := m.lastName
    loanAmount := some m.loanAmount
    requestedAmount := m.requestedAmount
    phone := m.phone
    idNumber := m.idNumber
    evidencePhotos := m.evidencePhotos
    signature := m.signature
    isLeader := m.isLeader }

/-- Re-embedding of a normalized payload as schema input. -/
def asPayload (n : NormalizedProposalPayload) : ProposalPayload :=
  { groupId := n.groupId
    groupName := some n.groupName
    leaderName := some n.leaderName
    leaderPhone := n.leaderPhone
    members := n.members.map asMember
    totalAmount := some n.totalAmount
    contractText := n.contractText
    evidencePhotos := n.evidencePhotos
    formData := n.formData }

/-- The direct submission body of the first scenario:
`{groupId:"G1", members:[{name:"Ana", loanAmount:100}]}`. -/
def jAna : Json :=
  Json.obj [("groupId", Json.str "G1"),
    ("members", Json.arr [Json.obj [("name", Json.str "Ana"), ("loanAmount", Json.num 100)]])]

/-- The enveloped submission body of the second scenario:
`{proposalId:"ignored", payload:{groupId:"G2",
members:[{firstName:"Bo", lastName:"Lee", requestedAmount:50}]}}`. -/
def jBoEnvelope : Json :=
  Json.obj [("proposalId", Json.str "ignored"),
    ("payload", Json.obj [("groupId", Json.str "G2"),
      ("members", Json.arr [Json.obj [("firstName", Json.str "Bo"),
        ("lastName", Json.str "Lee"), ("requestedAmount", Json.num 50)]])])]

/-- A schema-valid claimed stage always lets the new-stage computation
succeed. -/
theorem computeNewStage_ok (d : InsertDecision)
    (h : d.stage = ProposalStage.DOC_REVIEW ∨ d.stage = ProposalStage.RISK_REVIEW) :
    ∃ s, computeNewStage d = Except.ok s := by
  rcases h with h | h <;> cases hd : d.decision <;>
    simp [computeNewStage, hd, h]

theorem decideHandler_malformed (st : Storage) (pid : String) (body : InsertDecision)
    (h : ¬ (body.stage = ProposalStage.DOC_REVIEW ∨ body.stage = ProposalStage.RISK_REVIEW)) :
    decideHandler st pid body = (Except.error DecideError.malformedInput, st) := by
  simp [decideHandler, insertDecisionSafeParse, h]

theorem decideHandler_notFound (st : Storage) (pid : String) (body : InsertDecision)
    (hstage : body.stage = ProposalStage.DOC_REVIEW ∨ body.stage = ProposalStage.RISK_REVIEW)
    (hg : getProposalStage st.proposals pid = none) :
    decideHandler st pid body = (Except.error DecideError.notFound, st) := by
  simp [decideHandler, insertDecisionSafeParse, hstage, hg]

theorem decideHandler_terminal (st : Storage) (pid : String) (body : InsertDecision)
    (s : ProposalStage)
    (hstage : body.stage = ProposalStage.DOC_REVIEW ∨ body.stage = ProposalStage.RISK_REVIEW)
    (hg : getProposalStage st.proposals pid = some s)
    (hterm : s = ProposalStage.APPROVED ∨ s = ProposalStage.REJECTED) :
    decideHandler st pid body = (Except.error DecideError.terminalStage, st) := by
  simp [decideHandler, insertDecisionSafeParse, hstage, hg, hterm]

theorem decideHandler_stale (st : Storage) (pid : String) (body : InsertDecision)
    (s : ProposalStage)
    (hstage : body.stage = ProposalStage.DOC_REVIEW ∨ body.stage = ProposalStage.RISK_REVIEW)
    (hg : getProposalStage st.proposals pid = some s)
    (hterm : ¬ (s = ProposalStage.APPROVED ∨ s = ProposalStage.REJECTED))
    (hne : s ≠ body.stage) :
    decideHandler st pid body = (Except.error DecideError.staleStage, st) := by
  simp [decideHandler, insertDecisionSafeParse, hstage, hg, hterm, hne]

theorem decideHandler_success (st : Storage) (pid : String) (body : InsertDecision)
    (s ns : ProposalStage)
    (hstage : body.stage = ProposalStage.DOC_REVIEW ∨ body.stage = ProposalStage.RISK_REVIEW)
    (hg : getProposalStage st.proposals pid = some s)
    (heq : s = body.stage)
    (hns : computeNewStage body = Except.ok ns) :
    decideHandler st pid body =
      (Except.ok
        { decisionId := st.nextDecisionId
          previousStage := s
          newStage := ns
          decision := body.decision },
        updateProposalStage (createDecision st pid body).2 pid ns) := by
  have hterm : ¬ (body.stage = ProposalStage.APPROVED ∨ body.stage = ProposalStage.REJECTED) := by
    rcases hstage with h | h <;> rw [h] <;> simp
  simp [decideHandler, insertDecisionSafeParse, createDecision, hstage, hg, hterm, heq, hns]

/-- Every error outcome of the decision handler leaves the store
untouched, and the post-record error branches never fire. -/
theorem decideHandler_error_eq (st : Storage) (pid : String) (body : InsertDecision)
    (e : DecideError) (st2 : Storage)
    (h : decideHandler st pid body = (Except.error e, st2)) :
    st2 = st ∧ e ≠ DecideError.invalidApprovalStage ∧ e ≠ DecideError.invalidDecisionType := by
  by_cases hstage :
      body.stage = ProposalStage.DOC_REVIEW ∨ body.stage = ProposalStage.RISK_REVIEW
  · cases hg : getProposalStage st.proposals pid with
    | none =>
      rw [decideHandler_notFound st pid body hstage hg] at h
      simp only [Prod.mk.injEq, Except.error.injEq] at h
      exact ⟨h.2.symm, by rw [← h.1]; simp, by rw [← h.1]; simp⟩
    | some s =>
      by_cases hterm : s = ProposalStage.APPROVED ∨ s = ProposalStage.REJECTED
      · rw [decideHandler_terminal st pid body s hstage hg hterm] at h
        simp only [Prod.mk.injEq, Except.error.injEq] at h
        exact ⟨h.2.symm, by rw [← h.1]; simp, by rw [← h.1]; simp⟩
      · by_cases heq : s = body.stage
        · obtain ⟨ns, hns⟩ := computeNewStage_ok body hstage
          rw [decideHandler_success st pid body s ns hstage hg heq hns] at h
          simp at h
        · rw [decideHandler_stale st pid body s hstage hg hterm heq] at h
          simp only [Prod.mk.injEq, Except.error.injEq] at h
          exact ⟨h.2.symm, by rw [← h.1]; simp, by rw [← h.1]; simp⟩
  · rw [decideHandler_malformed st pid body hstage] at h
    simp only [Prod.mk.injEq, Except.error.injEq] at h
    exact ⟨h.2.symm, by rw [← h.1]; simp, by rw [← h.1]; simp⟩

/-- A success outcome of the decision handler can only arise from the
guarded path: schema-valid stage, matching current stage, computed next
stage, record appended, stage updated. -/
theorem decideHandler_ok_eq (st : Storage) (pid : String) (body : InsertDecision)
    (r : DecideOk) (st2 : Storage)
    (h : decideHandler st pid body = (Except.ok r, st2)) :
    getProposalStage st.proposals pid = some body.stage ∧
    (body.stage = ProposalStage.DOC_REVIEW ∨ body.stage = ProposalStage.RISK_REVIEW) ∧
    computeNewStage body = Except.ok r.newStage ∧
    r = { decisionId := st.nextDecisionId, previousStage := body.stage,
          newStage := r.newStage, decision := body.decision } ∧
    st2 = updateProposalStage (createDecision st pid body).2 pid r.newStage := by
  by_cases hstage :
      body.stage = ProposalStage.DOC_REVIEW ∨ body.stage = ProposalStage.RISK_REVIEW
  · cases hg : getProposalStage st.proposals pid with
    | none => rw [decideHandler_notFound st pid body hstage hg] at h; simp at h
    | some s =>
      by_cases hterm : s = ProposalStage.APPROVED ∨ s = ProposalStage.REJECTED
      · rw [decideHandler_terminal st pid body s hstage hg hterm] at h; simp at h
      · by_cases heq : s = body.stage
        · obtain ⟨ns, hns⟩ := computeNewStage_ok body hstage
          rw [decideHandler_success st pid body s ns hstage hg heq hns] at h
          simp only [Prod.mk.injEq, Except.ok.injEq] at h
          obtain ⟨hr, hst2⟩ := h
          subst heq
          subst hst2
          subst hr
          exact ⟨rfl, hstage, hns, rfl, rfl⟩
        · rw [decideHandler_stale st pid body s hstage hg hterm heq] at h; simp at h
  · rw [decideHandler_malformed st pid body hstage] at h; simp at h

/-- Updating a stored stage makes subsequent lookup of that proposal
return the new stage. -/
theorem getProposalStage_map_update (l : List (String × ProposalStage)) (pid : String)
    (s0 s : ProposalStage) (h : getProposalStage l pid = some s0) :
    getProposalStage (l.map (fun kv => if kv.1 = pid then (kv.1, s) else kv)) pid = some s := by
  induction l with
  | nil => simp [getProposalStage] at h
  | cons kv rest ih =>
    obtain ⟨k, v⟩ := kv
    have hmap : List.map (fun kv => if kv.1 = pid then (kv.1, s) else kv) ((k, v) :: rest) =
        (if k = pid then (k, s) else (k, v)) ::
          List.map (fun kv => if kv.1 = pid then (kv.1, s) else kv) rest := by
      simp
    rw [hmap]
    by_cases hk : k = pid
    · rw [if_pos hk]
      simp [getProposalStage, hk]
    · rw [if_neg hk]
      simp only [getProposalStage, hk, if_false] at h ⊢
      exact ih h

/-- C1: for every decision request on an existing proposal, a rejected
transition (terminal-state guard, stale-stage mismatch, or invalid
approval stage) creates no Decision record and leaves the proposal's
stage and decision history completely unchanged. -/
theorem artemis_C1 (st : Storage) (pid : String) (body : InsertDecision)
    (S : ProposalStage) (e : DecideError) (st2 : Storage)
    (_hexists : getProposalStage st.proposals pid = some S)
    (h : decideHandler st pid body = (Except.error e, st2))
    (_hkind : e = DecideError.terminalStage ∨ e = DecideError.staleStage ∨
      e = DecideError.invalidApprovalStage) :
    st2 = st :=
  (decideHandler_error_eq st pid body e st2 h).1

theorem artemis_C1_witness :
    getProposalStage (Storage.mk [("p1", ProposalStage.APPROVED)] [] 0 0).proposals "p1" =
      some ProposalStage.APPROVED ∧
    decideHandler (Storage.mk [("p1", ProposalStage.APPROVED)] [] 0 0) "p1"
        (InsertDecision.mk ProposalStage.DOC_REVIEW DecisionType.APPROVE [] none "u1") =
      (Except.error DecideError.terminalStage,
        Storage.mk [("p1", ProposalStage.APPROVED)] [] 0 0) ∧
    Storage.mk [("p1", ProposalStage.APPROVED)] [] 0 0 =
      Storage.mk [("p1", ProposalStage.APPROVED)] [] 0 0 :=
  ⟨rfl, rfl,
    artemis_C1 (Storage.mk [("p1", ProposalStage.APPROVED)] [] 0 0) "p1"
      (InsertDecision.mk ProposalStage.DOC_REVIEW DecisionType.APPROVE [] none "u1")
      ProposalStage.APPROVED DecideError.terminalStage
      (Storage.mk [("p1", ProposalStage.APPROVED)] [] 0 0) rfl rfl (Or.inl rfl)⟩

/-- C2: for every proposal whose current stage is APPROVED or REJECTED
and every decision request, the decision is rejected, no decision is
recorded, and the proposal's stage never changes. -/
theorem artemis_C2 (st : Storage) (pid : String) (body : InsertDecision)
    (S : ProposalStage)
    (hg : getProposalStage st.proposals pid = some S)
    (hterm : S = ProposalStage.APPROVED ∨ S = ProposalStage.REJECTED) :
    ∃ e, decideHandler st pid body = (Except.error e, st) ∧
      ((body.stage = ProposalStage.DOC_REVIEW ∨ body.stage = ProposalStage.RISK_REVIEW) →
        e = DecideError.terminalStage) := by
  by_cases hstage :
      body.stage = ProposalStage.DOC_REVIEW ∨ body.stage = ProposalStage.RISK_REVIEW
  · exact ⟨_, decideHandler_terminal st pid body S hstage hg hterm, fun _ => rfl⟩
  · exact ⟨_, decideHandler_malformed st pid body hstage, fun hc => absurd hc hstage⟩

theorem artemis_C2_witness :
    getProposalStage (Storage.mk [("p2", ProposalStage.REJECTED)] [] 3 7).proposals "p2" =
      some ProposalStage.REJECTED ∧
    (∃ e, decideHandler (Storage.mk [("p2", ProposalStage.REJECTED)] [] 3 7) "p2"
        (InsertDecision.mk ProposalStage.RISK_REVIEW DecisionType.REJECT ["r"] none "u2") =
        (Except.error e, Storage.mk [("p2", ProposalStage.REJECTED)] [] 3 7) ∧
      ((ProposalStage.RISK_REVIEW = ProposalStage.DOC_REVIEW ∨
          ProposalStage.RISK_REVIEW = ProposalStage.RISK_REVIEW) →
        e = DecideError.terminalStage)) :=
  ⟨rfl,
    artemis_C2 (Storage.mk [("p2", ProposalStage.REJECTED)] [] 3 7) "p2"
      (InsertDecision.mk ProposalStage.RISK_REVIEW DecisionType.REJECT ["r"] none "u2")
      ProposalStage.REJECTED rfl (Or.inr rfl)⟩

/-- C3: for every non-terminal current stage S and decision request
whose claimed stage differs from S, the transition is rejected (the
stale-decision guard when the claimed stage is schema-admissible) and
the store — hence the proposal's stage — remains unchanged. -/
theorem artemis_C3 (st : Storage) (pid : String) (body : InsertDecision)
    (S : ProposalStage)
    (hg : getProposalStage st.proposals pid = some S)
    (hna : S ≠ ProposalStage.APPROVED) (hnr : S ≠ ProposalStage.REJECTED)
    (hne : body.stage ≠ S) :
    ∃ e, decideHandler st pid body = (Except.error e, st) ∧
      ((body.stage = ProposalStage.DOC_REVIEW ∨ body.stage = ProposalStage.RISK_REVIEW) →
        e = DecideError.staleStage) := by
  by_cases hstage :
      body.stage = ProposalStage.DOC_REVIEW ∨ body.stage = ProposalStage.RISK_REVIEW
  · exact ⟨_, decideHandler_stale st pid body S hstage hg
      (fun hc => hc.elim hna hnr) (fun hc => hne hc.symm), fun _ => rfl⟩
  · exact ⟨_, decideHandler_malformed st pid body hstage, fun hc => absurd hc hstage⟩

theorem artemis_C3_witness :
    getProposalStage (Storage.mk [("p3", ProposalStage.DOC_REVIEW)] [] 0 0).proposals "p3" =
      some ProposalStage.DOC_REVIEW ∧
    (∃ e, decideHandler (Storage.mk [("p3", ProposalStage.DOC_REVIEW)] [] 0 0) "p3"
        (InsertDecision.mk ProposalStage.RISK_REVIEW DecisionType.APPROVE [] none "u3") =
        (Except.error e, Storage.mk [("p3", ProposalStage.DOC_REVIEW)] [] 0 0) ∧
      ((ProposalStage.RISK_REVIEW = ProposalStage.DOC_REVIEW ∨
          ProposalStage.RISK_REVIEW = ProposalStage.RISK_REVIEW) →
        e = DecideError.staleStage)) :=
  ⟨rfl,
    artemis_C3 (Storage.mk [("p3", ProposalStage.DOC_REVIEW)] [] 0 0) "p3"
      (InsertDecision.mk ProposalStage.RISK_REVIEW DecisionType.APPROVE [] none "u3")
      ProposalStage.DOC_REVIEW rfl (by simp) (by simp) (by simp)⟩

/-- C4: every decision request that passes the terminal-state and
stale-stage guards gets the reference transition table — reject maps
any non-terminal stage to REJECTED, request-changes to
CHANGES_REQUESTED, approve maps DOC_REVIEW to RISK_REVIEW and
RISK_REVIEW to APPROVED — and an approval claimed at any other stage is
rejected by the new-stage computation as an invalid approval stage. -/
theorem artemis_C4 :
    (∀ (st : Storage) (pid : String) (body : InsertDecision) (S : ProposalStage),
      getProposalStage st.proposals pid = some S →
      (body.stage = ProposalStage.DOC_REVIEW ∨ body.stage = ProposalStage.RISK_REVIEW) →
      body.stage = S →
      ∃ r st2, decideHandler st pid body = (Except.ok r, st2) ∧
        (body.decision = DecisionType.REJECT → r.newStage = ProposalStage.REJECTED) ∧
        (body.decision = DecisionType.REQUEST_CHANGES →
          r.newStage = ProposalStage.CHANGES_REQUESTED) ∧
        (body.decision = DecisionType.APPROVE → S = ProposalStage.DOC_REVIEW →
          r.newStage = ProposalStage.RISK_REVIEW) ∧
        (body.decision = DecisionType.APPROVE → S = ProposalStage.RISK_REVIEW →
          r.newStage = ProposalStage.APPROVED)) ∧
    (∀ d : InsertDecision, d.decision = DecisionType.APPROVE →
      d.stage ≠ ProposalStage.DOC_REVIEW → d.stage ≠ ProposalStage.RISK_REVIEW →
      computeNewStage d = Except.error DecideError.invalidApprovalStage) := by
  constructor
  · intro st pid body S hg hstage heq
    obtain ⟨ns, hns⟩ := computeNewStage_ok body hstage
    subst heq
    refine ⟨_, _, decideHandler_success st pid body body.stage ns hstage hg rfl hns,
      ?_, ?_, ?_, ?_⟩
    · intro hd
      have hc : computeNewStage body = Except.ok ProposalStage.REJECTED := by
        simp [computeNewStage, hd]
      have : ProposalStage.REJECTED = ns := by
        have := hc.symm.trans hns
        simpa using this
      simpa using this.symm
    · intro hd
      have hc : computeNewStage body = Except.ok ProposalStage.CHANGES_REQUESTED := by
        simp [computeNewStage, hd]
      have : ProposalStage.CHANGES_REQUESTED = ns := by
        have := hc.symm.trans hns
        simpa using this
      simpa using this.symm
    · intro hd hS
      have hc : computeNewStage body = Except.ok ProposalStage.RISK_REVIEW := by
        simp [computeNewStage, hd, hS]
      have : ProposalStage.RISK_REVIEW = ns := by
        have := hc.symm.trans hns
        simpa using this
      simpa using this.symm
    · intro hd hS
      have hc : computeNewStage body = Except.ok ProposalStage.APPROVED := by
        simp [computeNewStage, hd, hS]
      have : ProposalStage.APPROVED = ns := by
        have := hc.symm.trans hns
        simpa using this
      simpa using this.symm
  · intro d hd h1 h2
    simp [computeNewStage, hd, h1, h2]

theorem artemis_C4_witness :
    computeNewStage
        (InsertDecision.mk ProposalStage.CHANGES_REQUESTED DecisionType.APPROVE [] none "u4") =
      Except.error DecideError.invalidApprovalStage ∧
    (Prod.fst (decideHandler (Storage.mk [("p4", ProposalStage.DOC_REVIEW)] [] 0 0) "p4"
        (InsertDecision.mk ProposalStage.DOC_REVIEW DecisionType.APPROVE [] none "u4"))).isOk =
      true := by
  refine ⟨artemis_C4.2
    (InsertDecision.mk ProposalStage.CHANGES_REQUESTED DecisionType.APPROVE [] none "u4")
    rfl (by simp) (by simp), ?_⟩
  obtain ⟨r, st2, h1, -, -, -, -⟩ :=
    artemis_C4.1 (Storage.mk [("p4", ProposalStage.DOC_REVIEW)] [] 0 0) "p4"
      (InsertDecision.mk ProposalStage.DOC_REVIEW DecisionType.APPROVE [] none "u4")
      ProposalStage.DOC_REVIEW rfl (Or.inl rfl) rfl
  rw [h1]
  rfl

/-- C9: the decision-request schema only admits claimed stages
DOC_REVIEW and RISK_REVIEW, so a request claiming APPROVED, REJECTED or
CHANGES_REQUESTED is rejected as a schema-validation (MalformedInput)
error before any transition rule runs, never as an InvalidTransition. -/
theorem artemis_C9 (st : Storage) (pid : String) (body : InsertDecision)
    (h : body.stage = ProposalStage.APPROVED ∨ body.stage = ProposalStage.REJECTED ∨
      body.stage = ProposalStage.CHANGES_REQUESTED) :
    decideHandler st pid body = (Except.error DecideError.malformedInput, st) :=
  decideHandler_malformed st pid body (by rcases h with h | h | h <;> simp [h])

theorem artemis_C9_witness :
    decideHandler (Storage.mk [("p9", ProposalStage.DOC_REVIEW)] [] 0 0) "p9"
        (InsertDecision.mk ProposalStage.CHANGES_REQUESTED DecisionType.REJECT [] none "u9") =
      (Except.error DecideError.malformedInput,
        Storage.mk [("p9", ProposalStage.DOC_REVIEW)] [] 0 0) :=
  artemis_C9 (Storage.mk [("p9", ProposalStage.DOC_REVIEW)] [] 0 0) "p9"
    (InsertDecision.mk ProposalStage.CHANGES_REQUESTED DecisionType.REJECT [] none "u9")
    (Or.inr (Or.inr rfl))

/-- C10: under schema validation plus the two guards, the new-stage
computation always succeeds — the invalid-approval-stage and
invalid-decision-type branches are unreachable — so whenever the
handler appends a decision record, it also returns success and the
stored stage equals the success result's new stage. -/
theorem artemis_C10 (st : Storage) (pid : String) (body : InsertDecision) :
    (decideHandler st pid body).1 ≠ Except.error DecideError.invalidApprovalStage ∧
    (decideHandler st pid body).1 ≠ Except.error DecideError.invalidDecisionType ∧
    ((decideHandler st pid body).2.decisions ≠ st.decisions →
      (okNewStage (decideHandler st pid body).1).isSome = true ∧
      getProposalStage (decideHandler st pid body).2.proposals pid =
        okNewStage (decideHandler st pid body).1) := by
  rcases hres : decideHandler st pid body with ⟨r, st2⟩
  cases r with
  | error e =>
    obtain ⟨hst, h1, h2⟩ := decideHandler_error_eq st pid body e st2 hres
    subst hst
    refine ⟨?_, ?_, fun hd => absurd rfl hd⟩
    · simpa using h1
    · simpa using h2
  | ok r0 =>
    obtain ⟨hg, hstage, hns, hr0, hst2⟩ := decideHandler_ok_eq st pid body r0 st2 hres
    refine ⟨by simp, by simp, fun _ => ⟨rfl, ?_⟩⟩
    simp only [hst2, okNewStage, updateProposalStage, createDecision]
    exact getProposalStage_map_update st.proposals pid body.stage r0.newStage hg

theorem artemis_C10_witness :
    (decideHandler (Storage.mk [("pa", ProposalStage.RISK_REVIEW)] [] 5 9) "pa"
        (InsertDecision.mk ProposalStage.RISK_REVIEW DecisionType.APPROVE [] none "ua")).2.decisions ≠
      (Storage.mk [("pa", ProposalStage.RISK_REVIEW)] [] 5 9).decisions ∧
    (okNewStage (decideHandler (Storage.mk [("pa", ProposalStage.RISK_REVIEW)] [] 5 9) "pa"
        (InsertDecision.mk ProposalStage.RISK_REVIEW DecisionType.APPROVE [] none "ua")).1).isSome =
      true ∧
    getProposalStage (decideHandler (Storage.mk [("pa", ProposalStage.RISK_REVIEW)] [] 5 9) "pa"
        (InsertDecision.mk ProposalStage.RISK_REVIEW DecisionType.APPROVE [] none "ua")).2.proposals
        "pa" =
      okNewStage (decideHandler (Storage.mk [("pa", ProposalStage.RISK_REVIEW)] [] 5 9) "pa"
        (InsertDecision.mk ProposalStage.RISK_REVIEW DecisionType.APPROVE [] none "ua")).1 := by
  have hd : (decideHandler (Storage.mk [("pa", ProposalStage.RISK_REVIEW)] [] 5 9) "pa"
      (InsertDecision.mk ProposalStage.RISK_REVIEW DecisionType.APPROVE [] none "ua")).2.decisions ≠
      (Storage.mk [("pa", ProposalStage.RISK_REVIEW)] [] 5 9).decisions := by
    intro hc
    simp [decideHandler, insertDecisionSafeParse, getProposalStage, computeNewStage,
      createDecision, updateProposalStage] at hc
  obtain ⟨-, -, h3⟩ := artemis_C10 (Storage.mk [("pa", ProposalStage.RISK_REVIEW)] [] 5 9) "pa"
    (InsertDecision.mk ProposalStage.RISK_REVIEW DecisionType.APPROVE [] none "ua")
  exact ⟨hd, h3 hd⟩

/-- The JS default fallback, stated with the claims' wording: the value
when present and non-empty, else the default. -/
theorem jsOrStr_amended (x : Option String) (d : String) :
    jsOrStr x d = match x with
                  | some s => if s ≠ "" then s else d
                  | none => d := by
  cases x with
  | none => rfl
  | some s => by_cases hs : s = "" <;> simp [jsOrStr, hs]

/-- Re-applying the JS default fallback with the same default is
stable. -/
theorem jsOrStr_idem (x : Option String) (d : String) :
    jsOrStr (some (jsOrStr x d)) d = jsOrStr x d := by
  cases x with
  | none => by_cases hd : d = "" <;> simp [jsOrStr, hd]
  | some s => by_cases hs : s = "" <;> by_cases hd : d = "" <;> simp [jsOrStr, hs, hd]

/-- Member normalization is stable under re-embedding at the same
position. -/
theorem normalizeMember_asMember (m : Member) (i : Nat) :
    normalizeMember (asMember (normalizeMember m i)) i = normalizeMember m i := by
  simp [normalizeMember, asMember, jsOrStr_idem]

/-- List-level member normalization is stable under re-embedding. -/
theorem normalizeMembersAux_asMember (ms : List Member) (i : Nat) :
    normalizeMembersAux ((normalizeMembersAux ms i).map asMember) i =
      normalizeMembersAux ms i := by
  induction ms generalizing i with
  | nil => rfl
  | cons m rest ih =>
    simp only [normalizeMembersAux, List.map_cons, normalizeMember_asMember, ih]

/-- Member normalization preserves the member count. -/
theorem normalizeMembersAux_length (ms : List Member) (i : Nat) :
    (normalizeMembersAux ms i).length = ms.length := by
  induction ms generalizing i with
  | nil => rfl
  | cons m rest ih => simp [normalizeMembersAux, ih]

/-- Member normalization is positional: the j-th output is the j-th
input normalized at position i + j. -/
theorem normalizeMembersAux_getElem (ms : List Member) (i j : Nat) :
    (normalizeMembersAux ms i)[j]? = (ms[j]?).map (fun m => normalizeMember m (i + j)) := by
  induction ms generalizing i j with
  | nil => simp [normalizeMembersAux]
  | cons m rest ih =>
    cases j with
    | zero => simp [normalizeMembersAux]
    | succ j =>
      have harith : i + 1 + j = i + (j + 1) := by omega
      simp only [normalizeMembersAux, List.getElem?_cons_succ, ih, harith]

/-- The default used for a derived leader name, in fallthrough form. -/
theorem jsOrStr_leaderDefault (L : List NormalizedMember) :
    jsOrStr ((findLeader L).map (fun l => l.name)) "Unknown" =
      (match findLeader L with
       | some l => if l.name ≠ "" then l.name else "Unknown"
       | none => "Unknown") := by
  cases hf : findLeader L with
  | none => simp [jsOrStr]
  | some l => by_cases hn : l.name = "" <;> simp [jsOrStr, hn]

/-- C5 counterexample: the stated precedence fails on explicitly
supplied empty (falsy) values — an empty group name is replaced by the
derived label, an empty leader name falls through to a member's name,
and an empty-named flagged leader yields the sentinel instead of that
member's name. -/
theorem artemis_C5_counterexample :
    (normalizeProposalPayload (ProposalPayload.mk "G" (some "") none none
        [Member.mk none (some "Ana") none none (some 1) none none none none none none]
        none none none none)).groupName = "Group G" ∧
    specGroupName (ProposalPayload.mk "G" (some "") none none
        [Member.mk none (some "Ana") none none (some 1) none none none none none none]
        none none none none) = "" ∧
    (normalizeProposalPayload (ProposalPayload.mk "G" (some "") none none
        [Member.mk none (some "Ana") none none (some 1) none none none none none none]
        none none none none)).groupName ≠
      specGroupName (ProposalPayload.mk "G" (some "") none none
        [Member.mk none (some "Ana") none none (some 1) none none none none none none]
        none none none none) ∧
    (normalizeProposalPayload (ProposalPayload.mk "G" none (some "") none
        [Member.mk none (some "Ana") none none (some 1) none none none none none none]
        none none none none)).leaderName = "Ana" ∧
    specLeaderName (ProposalPayload.mk "G" none (some "") none
        [Member.mk none (some "Ana") none none (some 1) none none none none none none]
        none none none none) = "" ∧
    (normalizeProposalPayload (ProposalPayload.mk "G" none none none
        [Member.mk none (some "") (some " ") (some " ") (some 1) none none none none none
           (some true),
         Member.mk none (some "Ana") none none (some 1) none none none none none none]
        none none none none)).leaderName = "Unknown" ∧
    specLeaderName (ProposalPayload.mk "G" none none none
        [Member.mk none (some "") (some " ") (some " ") (some 1) none none none none none
           (some true),
         Member.mk none (some "Ana") none none (some 1) none none none none none none]
        none none none none) = "" :=
  ⟨rfl, rfl, by decide, rfl, rfl, rfl, rfl⟩

/-- C5 amended: derived fields follow JS-truthiness precedence — group
name is the explicit one when non-empty else the derived label; leader
name is the explicit one when non-empty, else the flagged-leader-else-
first member's name when non-empty, else "Unknown"; total amount is the
explicit one else the member sum; the member sequence preserves input
order and length; and the first scenario yields totalAmount 100 and
leaderName "Ana". -/
theorem artemis_C5_amended :
    (∀ p : ProposalPayload,
      (normalizeProposalPayload p).groupName = amendedGroupName p ∧
      (normalizeProposalPayload p).leaderName = amendedLeaderName p ∧
      (normalizeProposalPayload p).totalAmount = amendedTotalAmount p ∧
      (normalizeProposalPayload p).members.length = p.members.length ∧
      (∀ j : Nat, (normalizeProposalPayload p).members[j]? =
        (p.members[j]?).map (fun m => normalizeMember m j))) ∧
    (submitOutcome jAna).map (fun n => (n.totalAmount, n.leaderName)) = some (100, "Ana") := by
  constructor
  · intro p
    refine ⟨?_, ?_, ?_, ?_, ?_⟩
    · show jsOrStr p.groupName ("Group " ++ p.groupId) = amendedGroupName p
      rw [jsOrStr_amended]
      rfl
    · show jsOrStr p.leaderName
          (jsOrStr ((findLeader (normalizeMembersAux p.members 0)).map (fun l => l.name))
            "Unknown") = amendedLeaderName p
      rw [jsOrStr_leaderDefault, jsOrStr_amended]
      rfl
    · cases ht : p.totalAmount <;>
        simp [normalizeProposalPayload, amendedTotalAmount, ht]
    · simp [normalizeProposalPayload, normalizeMembersAux_length]
    · intro j
      simp [normalizeProposalPayload, normalizeMembersAux_getElem]
  · rfl

/-- C6 counterexample: an explicitly supplied empty member identifier
does not follow the claim's stated precedence — the code synthesizes
the positional identifier instead of keeping the explicit value. -/
theorem artemis_C6_counterexample :
    (normalizeMember (Member.mk (some "") (some "A") none none (some 1)
        none none none none none none) 0).memberId = "M1" ∧
    specMemberId (Member.mk (some "") (some "A") none none (some 1)
        none none none none none none) 0 = "" ∧
    (normalizeMember (Member.mk (some "") (some "A") none none (some 1)
        none none none none none none) 0).memberId ≠
      specMemberId (Member.mk (some "") (some "A") none none (some 1)
        none none none none none none) 0 :=
  ⟨rfl, rfl, by decide⟩

/-- C6 amended: member normalization uses the given identifier when
present and non-empty else the synthesized positional one, the stated
name and amount precedence, passes every other optional field through
unmodified, and the Bo Lee scenario yields name "Bo Lee" with
loanAmount 50. -/
theorem artemis_C6_amended :
    (∀ (m : Member) (i : Nat),
      (normalizeMember m i).memberId = amendedMemberId m i ∧
      (normalizeMember m i).name = amendedMemberName m ∧
      (normalizeMember m i).loanAmount = amendedMemberAmount m ∧
      (normalizeMember m i).firstName = m.firstName ∧
      (normalizeMember m i).lastName = m.lastName ∧
      (normalizeMember m i).requestedAmount = m.requestedAmount ∧
      (normalizeMember m i).phone = m.phone ∧
      (normalizeMember m i).idNumber = m.idNumber ∧
      (normalizeMember m i).evidencePhotos = m.evidencePhotos ∧
      (normalizeMember m i).signature = m.signature ∧
      (normalizeMember m i).isLeader = m.isLeader) ∧
    (submitOutcome jBoEnvelope).map
        (fun n => (n.leaderName, n.members.map (fun mm => (mm.name, mm.loanAmount)))) =
      some ("Bo Lee", [("Bo Lee", 50)]) := by
  constructor
  · intro m i
    refine ⟨?_, ?_, ?_, rfl, rfl, rfl, rfl, rfl, rfl, rfl, rfl⟩
    · show jsOrStr m.memberId ("M" ++ toString (i + 1)) = amendedMemberId m i
      rw [jsOrStr_amended]
      rfl
    · show jsOrStr m.name
          (jsTrim ((m.firstName.getD "") ++ " " ++ (m.lastName.getD ""))) =
        amendedMemberName m
      rw [jsOrStr_amended]
      rfl
    · cases hl : m.loanAmount <;> cases hr : m.requestedAmount <;>
        simp [normalizeMember, amendedMemberAmount, hl, hr]
  · rfl

/-- C7: an enveloped submission and the direct submission of the same
canonical payload converge on the same candidate, hence the same
validation outcome and normalized persisted payload; a body without a
payload key is treated as a direct submission. -/
theorem artemis_C7 (x : Json) (fields : List (String × Json))
    (hnp : getField (Json.obj fields) "payload" = none) :
    resolveEnvelope (Json.obj [("proposalId", x), ("payload", Json.obj fields)]) =
      Json.obj fields ∧
    resolveEnvelope (Json.obj fields) = Json.obj fields ∧
    submitOutcome (Json.obj [("proposalId", x), ("payload", Json.obj fields)]) =
      submitOutcome (Json.obj fields) ∧
    (∀ b : Json, getField b "payload" = none → resolveEnvelope b = b) := by
  have h1 : resolveEnvelope (Json.obj [("proposalId", x), ("payload", Json.obj fields)]) =
      Json.obj fields := rfl
  have h2 : resolveEnvelope (Json.obj fields) = Json.obj fields := by
    simp [resolveEnvelope, hnp]
  refine ⟨h1, h2, ?_, ?_⟩
  · simp only [submitOutcome, h1, h2]
  · intro b hb
    simp [resolveEnvelope, hb]

theorem artemis_C7_witness :
    getField (Json.obj [("groupId", Json.str "G2"),
        ("members", Json.arr [Json.obj [("firstName", Json.str "Bo"),
          ("lastName", Json.str "Lee"), ("requestedAmount", Json.num 50)]])]) "payload" =
      none ∧
    submitOutcome (Json.obj [("proposalId", Json.str "ignored"),
        ("payload", Json.obj [("groupId", Json.str "G2"),
          ("members", Json.arr [Json.obj [("firstName", Json.str "Bo"),
            ("lastName", Json.str "Lee"), ("requestedAmount", Json.num 50)]])])]) =
      submitOutcome (Json.obj [("groupId", Json.str "G2"),
        ("members", Json.arr [Json.obj [("firstName", Json.str "Bo"),
          ("lastName", Json.str "Lee"), ("requestedAmount", Json.num 50)]])]) :=
  ⟨rfl,
    (artemis_C7 (Json.str "ignored")
      [("groupId", Json.str "G2"),
        ("members", Json.arr [Json.obj [("firstName", Json.str "Bo"),
          ("lastName", Json.str "Lee"), ("requestedAmount", Json.num 50)]])]
      rfl).2.2.1⟩

/-- C8: normalization of derived fields is idempotent — re-running it
on an already-normalized payload returns the identical normalized
payload (same total amount, leader name, and normalized members). -/
theorem artemis_C8 (p : ProposalPayload) :
    normalizeProposalPayload (asPayload (normalizeProposalPayload p)) =
      normalizeProposalPayload p := by
  simp only [normalizeProposalPayload, asPayload]
  rw [normalizeMembersAux_asMember]
  simp [jsOrStr_idem]

end Artemis
